import Mathlib

/-!
# Shallow embedding of the TCR (towers-and-troops) game engine

This file embeds, in Lean, the turn-based ("Simple mode") game engine of the
`net-centric-project` repository and proves properties of it.

Sources embedded (Go):
* `internal/game/logic_simple.go` — `SimpleModeHandler`: `createPlayerTowers`,
  `ProcessTurn`, `deployTroop`, `findValidTarget`, `processTroopAttacks`,
  `processTowerCounterattacks`, `cleanupDefeatedUnits`, `processQueenHealing`,
  `checkGameOver`, `nextTurn`.
* the combat helper `CalculateDamage` (package `game`).
* the game/tower/troop data model (package `game`).
* `internal/models` — `TowerSpec`, `TroopSpec`, `CalculateRequiredExp`,
  `CalculateStatBoost`.
* `internal/server/session.go` — the experience-settlement part of
  `handleGameOver` and `calculateDestroyedTowerExp`.

Modelling conventions:
* Go `int` is modelled by `Int` (no overflow is relevant at the studied inputs).
* The match-start/deploy stat formula
  `int(float64(base) * (1.0 + 0.1*float64(level-1)))` is modelled bit-exactly
  in IEEE 754 binary64 (the `FP` development and `scaledStat` below), since
  its `float64` result differs from the exact rational value at in-range
  inputs (base 100, level 14: 229 vs 230).  The remaining `float64` code
  (`CalculateRequiredExp`'s `*= 1.1` loop, queen-heal percentages) is
  modelled exactly over `ℚ`; there the float and exact computations first
  part ways far outside the studied range (the EXP loop only near level
  250), and `int(x)` (Go's float-to-int conversion, truncation toward zero)
  is modelled by `goInt`.
* Go map iteration order is unspecified; wherever the engine ranges over a
  map (towers of a player, active troops of a player) the embedding fixes
  the order king, guard1, guard2 for towers and insertion order for troops.
* Each player owns exactly the three towers created by `createPlayerTowers`
  (ids `king_<pid>`, `guard1_<pid>`, `guard2_<pid>`); the embedding keys a
  player's towers by the slot they were created for.
* `time.Since(troop.DeployedTime) < 2*time.Second` is modelled by comparing
  an integer clock `now` (seconds) against the troop's `deployedTime`.
* `uuid.New()` is modelled by a fresh-instance counter threaded in the state.
-/

namespace TCR

/-- Go `int(x)` applied to a `float64`: truncation toward zero
(modelled exactly over ℚ as truncated division of the reduced fraction). -/
def goInt (q : ℚ) : Int :=
  q.num.tdiv q.den

/-- On nonnegative rationals, Go's float-to-int truncation is the floor. -/
theorem goInt_eq_floor (q : ℚ) (h : 0 ≤ q) : goInt q = ⌊q⌋ := by
  rw [goInt, Rat.floor_def]
  exact Int.tdiv_eq_ediv (Rat.num_nonneg.mpr h) (Int.ofNat_nonneg q.den)

/-- `CalculateDamage` (package `game`): `DMG = ATK - DEF`, floored at 0. -/
def CalculateDamage (attackerATK defenderDEF : Int) : Int :=
  let damage := attackerATK - defenderDEF
  if damage < 0 then 0 else damage

/-- `models.TowerSpec`: base specifications for a tower type. -/
structure TowerSpec where
  name : String
  baseHP : Int
  baseATK : Int
  baseDEF : Int
  critChance : ℚ
  expYield : Int
  deriving Repr, DecidableEq

/-- `models.TroopSpec`: base specifications for a troop type. -/
structure TroopSpec where
  name : String
  baseHP : Int
  baseATK : Int
  baseDEF : Int
  manaCost : Int
  expYield : Int
  deriving Repr, DecidableEq

/-- `game.Tower`: a tower instance.  `targetID` is the Go field
`TargetID string` ("ID of the troop currently targeting this tower", used
for counterattack targeting); the empty string is modelled as `none` and a
troop instance id as `some`. `defense` is the Go field `DEF`. -/
structure Tower where
  specID : String
  name : String
  currentHP : Int
  maxHP : Int
  atk : Int
  defense : Int
  ownerPlayerID : String
  targetID : Option Nat
  deriving Repr, DecidableEq

/-- The three tower slots a player owns (`king_<pid>`, `guard1_<pid>`,
`guard2_<pid>`). -/
inductive TowerSlot
  | king
  | guard1
  | guard2
  deriving Repr, DecidableEq

/-- A player's towers, keyed by slot (see the modelling conventions). -/
structure PlayerTowers where
  king : Tower
  guard1 : Tower
  guard2 : Tower
  deriving Repr, DecidableEq

/-- Look a tower up by slot. -/
def PlayerTowers.get (p : PlayerTowers) : TowerSlot → Tower
  | TowerSlot.king => p.king
  | TowerSlot.guard1 => p.guard1
  | TowerSlot.guard2 => p.guard2

/-- Replace the tower in one slot. -/
def PlayerTowers.set (p : PlayerTowers) : TowerSlot → Tower → PlayerTowers
  | TowerSlot.king, t => { p with king := t }
  | TowerSlot.guard1, t => { p with guard1 := t }
  | TowerSlot.guard2, t => { p with guard2 := t }

/-- `game.ActiveTroop`: a deployed troop instance. `targetID` is the id of
the tower this troop is targeting (`""` ↦ `none`); within the embedded code a
troop only ever targets opponent towers, identified by slot. -/
structure ActiveTroop where
  instanceID : Nat
  specID : String
  name : String
  currentHP : Int
  maxHP : Int
  atk : Int
  defense : Int
  ownerPlayerID : String
  targetID : Option TowerSlot
  deployedTime : Int
  deriving Repr, DecidableEq

/-- `findValidTarget` (`logic_simple.go:305-353`): Guard Tower 1 must be
destroyed before Guard Tower 2 or the King Tower can be targeted; among the
remaining live towers the one with the lowest absolute HP is chosen
(`possibleTargets` is built in the order guard2, king and the scan keeps the
earlier entry on ties). -/
def findValidTarget (opp : PlayerTowers) : Option TowerSlot :=
  if opp.guard1.currentHP > 0 then
    some TowerSlot.guard1
  else
    let possibleTargets : List TowerSlot :=
      (if opp.guard2.currentHP > 0 then [TowerSlot.guard2] else []) ++
      (if opp.king.currentHP > 0 then [TowerSlot.king] else [])
    match possibleTargets with
    | [] => none
    | t :: ts =>
        some (ts.foldl
          (fun best c =>
            if (opp.get c).currentHP < (opp.get best).currentHP then c else best)
          t)

/-- The Go loop `multiplier := 1.0; for i := 0; i < n; i++ { multiplier *= 1.1 }`
(exact over ℚ). -/
def multiplierLoop : Nat → ℚ
  | 0 => 1
  | n + 1 => multiplierLoop n * (11/10)

/-- `models.CalculateRequiredExp`: EXP required to reach the next level:
0 below level 1, the base 100 at level 1, otherwise
`int(float64(100) * multiplier)` with the multiplier from the `*= 1.1`
loop run `currentLevel-1` times. -/
def CalculateRequiredExp (currentLevel : Int) : Int :=
  if currentLevel < 1 then 0
  else if currentLevel = 1 then 100
  else goInt (100 * multiplierLoop (currentLevel - 1).toNat)

/-- `models.CalculateStatBoost`: stat multiplier from the `*= 1.1` loop run
`level-1` times (1 for levels `≤ 1`). -/
def CalculateStatBoost (level : Int) : ℚ :=
  if level ≤ 1 then 1 else multiplierLoop (level - 1).toNat

/-- The exact rational value of the linear level factor
`1 + 0.1*(level-1)`; kept only as the real-arithmetic reference against
which the program's `float64` evaluation (below) is compared. -/
def levelMultiplier (level : Int) : ℚ :=
  1 + (1/10 : ℚ) * (level - 1)

/-! ### Bit-exact binary64 model

`createPlayerTowers` and `deployTroop` compute
`levelMultiplier := 1.0 + 0.1*float64(player.Level-1)` and
`int(float64(base) * levelMultiplier)` in Go `float64` (IEEE 754 binary64)
arithmetic, whose results differ from the exact rational values at some
in-range inputs (e.g. base 100, level 14: `float64` gives 229, the exact
value truncates to 230).  The model below represents every `float64` value
by an unnormalised dyadic pair `m·2^e` and rounds each operation's exact
result to 53 significant bits, round-to-nearest with ties to even — exactly
IEEE 754 binary64 for operands in the normal range.  Exponent overflow and
subnormals are not modelled: the stats reachable in play sit many orders of
magnitude inside the normal range. -/

/-- A binary floating-point value `m·2^e` (unnormalised; only the value it
denotes matters). -/
structure FP where
  m : Int
  e : Int
  deriving Repr, DecidableEq

/-- Floor of the base-2 logarithm, by structural fuel recursion so that the
kernel can evaluate it (`Nat.log2` itself is defined by well-founded
recursion); `floorLog2_eq` below shows it agrees with `Nat.log2`. -/
def floorLog2Aux : Nat → Nat → Nat
  | 0, _ => 0
  | fuel + 1, n => if 2 ≤ n then floorLog2Aux fuel (n / 2) + 1 else 0

/-- Floor of the base-2 logarithm (0 at 0). -/
def floorLog2 (n : Nat) : Nat :=
  floorLog2Aux n n

/-- The fuel in `floorLog2` always suffices: it computes `Nat.log2`. -/
theorem floorLog2Aux_eq (fuel : Nat) : ∀ n : Nat, n ≤ fuel →
    floorLog2Aux fuel n = Nat.log2 n := by
  induction fuel with
  | zero =>
      intro n hn
      have h0 : n = 0 := by omega
      subst h0
      simp [floorLog2Aux, Nat.log2]
  | succ f ih =>
      intro n hn
      rw [floorLog2Aux, Nat.log2]
      split_ifs with h2
      · rw [ih (n / 2) (by omega)]
      · rfl

/-- `floorLog2` computes `Nat.log2`. -/
theorem floorLog2_eq (n : Nat) : floorLog2 n = Nat.log2 n :=
  floorLog2Aux_eq n n (le_refl n)

/-- Scale the fraction `p/q` by `2^s` (as a new numerator/denominator
pair). -/
def scaledFrac (p q : Nat) (s : Int) : Nat × Nat :=
  if 0 ≤ s then (p * 2 ^ s.toNat, q) else (p, q * 2 ^ (-s).toNat)

/-- Round the positive fraction `p/q` to 53 significant bits, to nearest,
ties to even: scale by `2^s` so the value lies in `[2^52, 2^53)` (the
`floorLog2` estimate needs at most one upward correction), then round the
integer part, with a tie going to the even mantissa. -/
def posRound (p q : Nat) : FP :=
  if p = 0 then ⟨0, 0⟩
  else
    let s0 : Int := 52 + (floorLog2 q : Int) - (floorLog2 p : Int)
    let pq0 := scaledFrac p q s0
    let s : Int := if pq0.1 < 2 ^ 52 * pq0.2 then s0 + 1 else s0
    let pq := scaledFrac p q s
    let d := pq.1 / pq.2
    let r := pq.1 % pq.2
    let mant := if pq.2 < 2 * r then d + 1
                else if 2 * r < pq.2 then d
                else if d % 2 = 0 then d else d + 1
    ⟨(mant : Int), -s⟩

/-- Round the fraction `num/den` to binary64 (sign-symmetric, as IEEE
round-to-nearest is). -/
def FP.roundFrac (num : Int) (den : Nat) : FP :=
  if num < 0 then
    let r := posRound (-num).toNat den
    ⟨-r.m, r.e⟩
  else posRound num.toNat den

/-- Round the exact dyadic value `m·2^e` to binary64. -/
def FP.norm (m e : Int) : FP :=
  if 0 ≤ e then FP.roundFrac (m * 2 ^ e.toNat) 1
  else FP.roundFrac m (2 ^ (-e).toNat)

/-- binary64 multiplication: the exact product, rounded once. -/
def FP.mul (a b : FP) : FP :=
  FP.norm (a.m * b.m) (a.e + b.e)

/-- binary64 addition: align exponents exactly, round the exact sum once. -/
def FP.add (a b : FP) : FP :=
  if a.e ≤ b.e then FP.norm (a.m + b.m * 2 ^ (b.e - a.e).toNat) a.e
  else FP.norm (a.m * 2 ^ (a.e - b.e).toNat + b.m) b.e

/-- Go's `float64(n)` conversion of an integer. -/
def FP.ofInt (n : Int) : FP :=
  FP.norm n 0

/-- Go's `int(f)` conversion: truncation of the value toward zero. -/
def FP.toInt (x : FP) : Int :=
  if 0 ≤ x.e then x.m * 2 ^ x.e.toNat else x.m.tdiv (2 ^ (-x.e).toNat)

/-- The Go literal `0.1`: the binary64 value nearest to 1/10. -/
def pointOneF : FP :=
  FP.roundFrac 1 10

/-- The Go literal `1.0` (exactly representable). -/
def oneF : FP :=
  ⟨1, 0⟩

/-- The value of the binary64 literal `0.1`
(`7205759403792794 × 2⁻⁵⁶ = 3602879701896397 × 2⁻⁵⁵ =
0.1000000000000000055511151231257827…`, the IEEE double nearest 1/10), as a
sanity anchor for the model. -/
theorem pointOneF_value : pointOneF = ⟨7205759403792794, -56⟩ := by
  decide

/-- A unit stat as computed in `createPlayerTowers` and `deployTroop`
(`logic_simple.go:70-80,264-274`):
`int(float64(base) * (1.0 + 0.1*float64(level-1)))`, each operation in
binary64. -/
def scaledStat (base : Int) (level : Int) : Int :=
  (FP.mul (FP.ofInt base)
    (FP.add oneF (FP.mul pointOneF (FP.ofInt (level - 1))))).toInt

set_option maxRecDepth 16384 in
/-- Where `float64` and exact rational arithmetic part ways inside the
playable range: at base 100 (the catalog Guard Tower DEF) and level 14 the
program computes 229 while the exact linear factor would truncate to
230. -/
theorem scaledStat_float_not_exact :
    scaledStat 100 14 = 229 ∧
    goInt ((100 : ℚ) * levelMultiplier 14) = 230 := by
  constructor
  · decide
  · have hq : (100 : ℚ) * levelMultiplier 14 = 230 := by
      norm_num [levelMultiplier]
    rw [hq, goInt_eq_floor _ (by norm_num)]
    norm_num

/-- `createPlayerTowers` (`logic_simple.go:56-121`): builds a player's king
tower and two guard towers from the `king_tower` and `guard_tower` specs,
each stat scaled by `scaledStat` (the `float64` evaluation of
`base * (1.0 + 0.1*(level-1))`, truncated); fails (`none`) when a spec is
missing. -/
def createPlayerTowers (playerID : String) (level : Int)
    (towerSpecs : List (String × TowerSpec)) : Option PlayerTowers :=
  match towerSpecs.lookup "king_tower", towerSpecs.lookup "guard_tower" with
  | some kingSpec, some guardSpec =>
      some
        { king :=
            { specID := "king_tower"
              name := kingSpec.name
              currentHP := scaledStat kingSpec.baseHP level
              maxHP := scaledStat kingSpec.baseHP level
              atk := scaledStat kingSpec.baseATK level
              defense := scaledStat kingSpec.baseDEF level
              ownerPlayerID := playerID
              targetID := none }
          guard1 :=
            { specID := "guard_tower"
              name := guardSpec.name ++ " 1"
              currentHP := scaledStat guardSpec.baseHP level
              maxHP := scaledStat guardSpec.baseHP level
              atk := scaledStat guardSpec.baseATK level
              defense := scaledStat guardSpec.baseDEF level
              ownerPlayerID := playerID
              targetID := none }
          guard2 :=
            { specID := "guard_tower"
              name := guardSpec.name ++ " 2"
              currentHP := scaledStat guardSpec.baseHP level
              maxHP := scaledStat guardSpec.baseHP level
              atk := scaledStat guardSpec.baseATK level
              defense := scaledStat guardSpec.baseDEF level
              ownerPlayerID := playerID
              targetID := none }
        }
  | _, _ => none

/-- HP percentage of a tower as computed in `processQueenHealing`
(`float64(CurrentHP) / float64(MaxHP) * 100`, exact over ℚ). -/
def hpPercentage (t : Tower) : ℚ :=
  (t.currentHP : ℚ) / (t.maxHP : ℚ) * 100

/-- `processQueenHealing` (`logic_simple.go:522-561`): scan the player's
towers (slot order king, guard1, guard2; Go ranges over a map), skipping
destroyed ones, for the strictly lowest HP percentage below the initial
bound 100; heal the selected tower by 300 HP capped at its `MaxHP`. -/
def processQueenHealing (p : PlayerTowers) : PlayerTowers :=
  let scan :=
    [TowerSlot.king, TowerSlot.guard1, TowerSlot.guard2].foldl
      (fun (acc : Option TowerSlot × ℚ) s =>
        let t := p.get s
        if t.currentHP ≤ 0 then acc
        else if acc.2 > hpPercentage t then (some s, hpPercentage t) else acc)
      (none, 100)
  match scan.1 with
  | none => p
  | some s =>
      let t := p.get s
      let healed := t.currentHP + 300
      let healed := if healed > t.maxHP then t.maxHP else healed
      p.set s { t with currentHP := healed }

/-- `checkGameOver` (`logic_simple.go:563-579`) restricted to the data it
reads: the game is over when either king tower's HP is `≤ 0`. -/
def checkGameOverB (myKingHP : Int) (opp : PlayerTowers) : Bool :=
  decide (myKingHP ≤ 0) || decide (opp.king.currentHP ≤ 0)

/-- Number of opponent towers still alive; used as fuel bound for the
troop attack loop (each loop iteration that continues destroys one). -/
def aliveCount (opp : PlayerTowers) : Nat :=
  (if opp.king.currentHP > 0 then 1 else 0) +
  (if opp.guard1.currentHP > 0 then 1 else 0) +
  (if opp.guard2.currentHP > 0 then 1 else 0)

/-- Events produced by the troop attack loop (the engine's human-readable
event records, reduced to their content). -/
inductive AtkEvent
  | retarget (s : TowerSlot)
  | attack (s : TowerSlot) (dmg : Int)
  | destroyed (s : TowerSlot)
  | gameOver
  deriving Repr, DecidableEq

/-- The per-iteration target resolution at the top of the attack loop
(`logic_simple.go:369-386`): keep the current target if it exists and is
alive, otherwise re-derive via `findValidTarget`; the `Bool` records whether
a retarget event is emitted. -/
def resolveTarget (opp : PlayerTowers) (cur : Option TowerSlot) :
    Option (TowerSlot × Bool) :=
  match cur with
  | some t =>
      if (opp.get t).currentHP ≤ 0 then (findValidTarget opp).map (fun n => (n, true))
      else some (t, false)
  | none => (findValidTarget opp).map (fun n => (n, true))

/-- The part of the troop that the attack loop reads and writes. -/
structure TroopCombat where
  atk : Int
  currentHP : Int
  targetID : Option TowerSlot
  deriving Repr, DecidableEq

/-- Result of one troop's attack loop. -/
structure AttackResult where
  opp : PlayerTowers
  troop : TroopCombat
  events : List AtkEvent
  gameOverFlag : Bool
  fuelExhausted : Bool
  deriving Repr, DecidableEq

/-- The attack loop of `processTroopAttacks` (`logic_simple.go:367-429`) for
one troop: while the troop is alive, resolve its target (clearing it and
stopping when no valid target remains), apply `CalculateDamage` to the
target tower, clamp the tower at 0 HP on destruction, stop on game over,
and otherwise continue attacking within the same action.  The Go loop is
unbounded; here it carries fuel, and `fuelExhausted` records whether the
fuel ran out (with fuel `> aliveCount opp` it never does, see
`troopAttackLoop_no_exhaust`). -/
def troopAttackLoop (fuel : Nat) (myKingHP : Int) (opp : PlayerTowers)
    (troop : TroopCombat) : AttackResult :=
  match fuel with
  | 0 => ⟨opp, troop, [], false, true⟩
  | fuel + 1 =>
    if troop.currentHP > 0 then
      match resolveTarget opp troop.targetID with
      | none => ⟨opp, { troop with targetID := none }, [], false, false⟩
      | some (tgt, retargeted) =>
          let troop := { troop with targetID := some tgt }
          let evs := if retargeted then [AtkEvent.retarget tgt] else []
          let t := opp.get tgt
          let damage := CalculateDamage troop.atk t.defense
          let hp := t.currentHP - damage
          let evs := evs ++ [AtkEvent.attack tgt damage]
          if hp ≤ 0 then
            let opp := opp.set tgt { t with currentHP := 0 }
            let evs := evs ++ [AtkEvent.destroyed tgt]
            if checkGameOverB myKingHP opp then
              ⟨opp, troop, evs ++ [AtkEvent.gameOver], true, false⟩
            else
              let rest := troopAttackLoop fuel myKingHP opp troop
              ⟨rest.opp, rest.troop, evs ++ rest.events,
               rest.gameOverFlag, rest.fuelExhausted⟩
          else
            ⟨opp.set tgt { t with currentHP := hp }, troop, evs, false, false⟩
    else ⟨opp, troop, [], false, false⟩

/-- `game.PlayerInGame` restricted to the fields the turn logic reads. -/
structure PlayerSt where
  id : String
  username : String
  level : Int
  towers : PlayerTowers
  activeTroops : List ActiveTroop
  deriving Repr, DecidableEq

/-- `game.GameState`. -/
inductive GameState
  | waiting
  | runningSimple
  | runningEnhanced
  | finished
  deriving Repr, DecidableEq

/-- `game.Game` restricted to the fields the Simple-mode turn logic and the
experience settlement read.  `nextInstanceID` models `uuid.New()` freshness;
`now` is the wall clock (seconds) at the time of the call. -/
structure GameSt where
  gameState : GameState
  currentTurnPlayerIndex : Int
  player0 : PlayerSt
  player1 : PlayerSt
  troopSpecs : List (String × TroopSpec)
  towerSpecs : List (String × TowerSpec)
  winnerID : Option String
  loserID : Option String
  nextInstanceID : Nat
  now : Int
  deriving Repr, DecidableEq

/-- `h.game.Players[i]` (for `i` guarded to be the current 0/1 turn index). -/
def getPlayer (s : GameSt) (i : Int) : PlayerSt :=
  if i = 0 then s.player0 else s.player1

/-- Write back `h.game.Players[i]`. -/
def setPlayer (s : GameSt) (i : Int) (p : PlayerSt) : GameSt :=
  if i = 0 then { s with player0 := p } else { s with player1 := p }

/-- `opponentIndex := (playerIndex + 1) % 2` (Go `%` truncates). -/
def oppIdx (i : Int) : Int :=
  (i + 1).tmod 2

/-- `checkGameOver` (`logic_simple.go:563-579`): scan players in index
order; the first whose king tower is at `≤ 0` HP loses.  Returns
`(winnerIndex, loserIndex)`. -/
def checkGameOver (s : GameSt) : Option (Int × Int) :=
  if s.player0.towers.king.currentHP ≤ 0 then some (1, 0)
  else if s.player1.towers.king.currentHP ≤ 0 then some (0, 1)
  else none

/-- The game-over bookkeeping performed when `checkGameOver` fires
(`GameState = Finished`, `WinnerID`, `LoserID`). -/
def applyGameOver (s : GameSt) (w l : Int) : GameSt :=
  { s with gameState := GameState.finished
           winnerID := some (getPlayer s w).id
           loserID := some (getPlayer s l).id }

/-- `nextTurn` (`logic_simple.go:582-584`). -/
def nextTurn (s : GameSt) : GameSt :=
  { s with currentTurnPlayerIndex := (s.currentTurnPlayerIndex + 1).tmod 2 }

/-- `deployTroop` (`logic_simple.go:237-299`): look the troop spec up
(`none` = "troop spec not found" error, no state change); the `queen` is
never placed on the board; otherwise create a troop instance with stats
scaled by `scaledStat`, initially targeted via `findValidTarget`, and
append it to the acting player's active troops. -/
def deployTroop (s : GameSt) (pi : Int) (troopID : String) : Option GameSt :=
  match s.troopSpecs.lookup troopID with
  | none => none
  | some troopSpec =>
      if troopID = "queen" then some s
      else
        let player := getPlayer s pi
        let opp := getPlayer s (oppIdx pi)
        let troop : ActiveTroop :=
          { instanceID := s.nextInstanceID
            specID := troopID
            name := troopSpec.name
            currentHP := scaledStat troopSpec.baseHP player.level
            maxHP := scaledStat troopSpec.baseHP player.level
            atk := scaledStat troopSpec.baseATK player.level
            defense := scaledStat troopSpec.baseDEF player.level
            ownerPlayerID := player.id
            targetID := findValidTarget opp.towers
            deployedTime := s.now }
        let s := setPlayer s pi
          { player with activeTroops := player.activeTroops ++ [troop] }
        some { s with nextInstanceID := s.nextInstanceID + 1 }

/-- The acting player's towers healed by the queen
(`ProcessTurn` step: `processQueenHealing(currentPlayer)`). -/
def queenHealState (s : GameSt) (pi : Int) : GameSt :=
  let player := getPlayer s pi
  setPlayer s pi { player with towers := processQueenHealing player.towers }

/-- One troop's turn inside `processTroopAttacks`: skip troops deployed
less than 2 seconds ago, otherwise run the attack loop against the
opponent's towers, write back the troop's target and the opponent's towers,
and perform the in-loop game-over bookkeeping when the loop flagged it. -/
def runTroopAttack (s : GameSt) (pi : Int) (tid : Nat) : GameSt :=
  let player := getPlayer s pi
  match player.activeTroops.find? (fun t => t.instanceID = tid) with
  | none => s
  | some troop =>
      if s.now - troop.deployedTime < 2 then s
      else
        let oi := oppIdx pi
        let opp := getPlayer s oi
        let r := troopAttackLoop (aliveCount opp.towers + 1)
          player.towers.king.currentHP opp.towers
          ⟨troop.atk, troop.currentHP, troop.targetID⟩
        let s := setPlayer s oi { opp with towers := r.opp }
        let player := getPlayer s pi
        let s := setPlayer s pi
          { player with
            activeTroops := player.activeTroops.map
              (fun t => if t.instanceID = tid
                        then { t with targetID := r.troop.targetID } else t) }
        if r.gameOverFlag then
          match checkGameOver s with
          | some (w, l) => applyGameOver s w l
          | none => s
        else s

/-- Clear every tower target reference that points at a defeated troop. -/
def clearTowerTargets (pt : PlayerTowers) (deadIds : List Nat) : PlayerTowers :=
  let clear := fun (t : Tower) =>
    match t.targetID with
    | some tid => if deadIds.contains tid then { t with targetID := none } else t
    | none => t
  { king := clear pt.king, guard1 := clear pt.guard1, guard2 := clear pt.guard2 }

/-- `cleanupDefeatedUnits` (`logic_simple.go:492-519`): purge troops at
`≤ 0` HP from both players' collections and clear any opposing tower's
target reference to a purged troop. -/
def cleanupDefeatedUnits (s : GameSt) : GameSt :=
  let dead0 := (s.player0.activeTroops.filter (fun t => t.currentHP ≤ 0)).map
    (fun t => t.instanceID)
  let dead1 := (s.player1.activeTroops.filter (fun t => t.currentHP ≤ 0)).map
    (fun t => t.instanceID)
  { s with
    player0 :=
      { s.player0 with
        activeTroops := s.player0.activeTroops.filter (fun t => ¬ t.currentHP ≤ 0)
        towers := clearTowerTargets s.player0.towers dead1 }
    player1 :=
      { s.player1 with
        activeTroops := s.player1.activeTroops.filter (fun t => ¬ t.currentHP ≤ 0)
        towers := clearTowerTargets s.player1.towers dead0 } }

/-- `processTroopAttacks` (`logic_simple.go:356-436`): every troop the
acting player owns takes its attack turn (troop order: insertion order; Go
ranges over a map), then defeated troops are cleaned up. -/
def processTroopAttacks (s : GameSt) (pi : Int) : GameSt :=
  let ids := (getPlayer s pi).activeTroops.map (fun t => t.instanceID)
  cleanupDefeatedUnits (ids.foldl (fun s tid => runTroopAttack s pi tid) s)

/-- The body of the tower loop in `processTowerCounterattacks`
(`logic_simple.go:444-483`): a tower that is alive and holds a
last-attacker reference (`TargetID != ""`) attacks that troop, provided the
troop still exists on the board, belongs to the acting player, is alive,
and was not already counterattacked in this resolution; a damaged troop is
clamped at 0 HP. -/
def counterStep (pi : Int) (acc : GameSt × List Nat) (slot : TowerSlot) :
    GameSt × List Nat :=
  let s := acc.1
  let attackedTroopIDs := acc.2
  let oi := oppIdx pi
  let tower := (getPlayer s oi).towers.get slot
  match tower.targetID with
  | none => acc
  | some tid =>
      if tower.currentHP ≤ 0 then acc
      else
        let board := (getPlayer s pi).activeTroops ++ (getPlayer s oi).activeTroops
        match board.find? (fun t => t.instanceID = tid) with
        | none => acc
        | some targetTroop =>
            if targetTroop.ownerPlayerID ≠ (getPlayer s pi).id ∨
               targetTroop.currentHP ≤ 0 then acc
            else if attackedTroopIDs.contains tid then acc
            else
              let damage := CalculateDamage tower.atk targetTroop.defense
              let newHP := targetTroop.currentHP - damage
              let newHP := if newHP ≤ 0 then 0 else newHP
              let player := getPlayer s pi
              let s := setPlayer s pi
                { player with
                  activeTroops := player.activeTroops.map
                    (fun t => if t.instanceID = tid
                              then { t with currentHP := newHP } else t) }
              (s, tid :: attackedTroopIDs)

/-- `processTowerCounterattacks` (`logic_simple.go:439-489`): run
`counterStep` over the opponent's towers (order king, guard1, guard2; Go
ranges over a map), then clean up defeated troops. -/
def processTowerCounterattacks (s : GameSt) (pi : Int) : GameSt :=
  cleanupDefeatedUnits
    (([TowerSlot.king, TowerSlot.guard1, TowerSlot.guard2].foldl
      (counterStep pi) (s, [])).1)

/-- The synchronous rejections of `ProcessTurn`. -/
inductive TurnError
  | notYourTurn
  | gameNotRunning
  | invalidTroopData
  | deployFailed
  | invalidAction
  deriving Repr, DecidableEq

/-- `ProcessTurn` (`logic_simple.go:124-234`), the Simple-mode turn
resolution: reject out-of-turn calls, non-running games, malformed or
unknown actions; otherwise deploy (or queen-heal), run the acting player's
troop attacks, check game over, run tower counterattacks, clean up, check
game over again, and pass the turn.  The returned state is the match state
as left behind by the call (error returns leave it as it was at the point
of the error). -/
def ProcessTurn (s : GameSt) (playerIndex : Int) (action : String)
    (troopID? : Option String) : Option TurnError × GameSt :=
  if s.currentTurnPlayerIndex ≠ playerIndex then (some TurnError.notYourTurn, s)
  else if s.gameState ≠ GameState.runningSimple then
    (some TurnError.gameNotRunning, s)
  else if action = "deploy_troop" then
    match troopID? with
    | none => (some TurnError.invalidTroopData, s)
    | some troopID =>
        match deployTroop s playerIndex troopID with
        | none => (some TurnError.deployFailed, s)
        | some s1 =>
            let s2 := if troopID = "queen" then queenHealState s1 playerIndex else s1
            let s3 := processTroopAttacks s2 playerIndex
            match checkGameOver s3 with
            | some (w, l) => (none, applyGameOver s3 w l)
            | none =>
                let s4 := processTowerCounterattacks s3 playerIndex
                let s5 := cleanupDefeatedUnits s4
                match checkGameOver s5 with
                | some (w, l) => (none, applyGameOver s5 w l)
                | none => (none, nextTurn s5)
  else (some TurnError.invalidAction, s)

/-- The shared board's tower collection (`BoardState.Towers` holds exactly
the six towers created for the two players). -/
def boardTowers (s : GameSt) : List Tower :=
  [s.player0.towers.king, s.player0.towers.guard1, s.player0.towers.guard2,
   s.player1.towers.king, s.player1.towers.guard1, s.player1.towers.guard2]

/-- `calculateDestroyedTowerExp` (`session.go:633-645`): sum the catalog
`ExpYield` over the board towers owned by `opponentPlayerID` whose HP is
`≤ 0` (towers whose spec is missing contribute nothing). -/
def calculateDestroyedTowerExp (board : List Tower) (opponentPlayerID : String)
    (towerSpecs : List (String × TowerSpec)) : Int :=
  board.foldl
    (fun (expGained : Int) (tower : Tower) =>
      if tower.ownerPlayerID = opponentPlayerID ∧ tower.currentHP ≤ 0 then
        match towerSpecs.lookup tower.specID with
        | some spec => expGained + spec.expYield
        | none => expGained
      else expGained)
    (0 : Int)

/-- The experience-earned computation of `handleGameOver`
(`session.go:528-530`): player 1 earns the destroyed-tower EXP of player 2's
towers and vice versa.  (Simple mode: "Only EXP from destroyed towers".) -/
def handleGameOverExp (s : GameSt) : Int × Int :=
  (calculateDestroyedTowerExp (boardTowers s) s.player1.id s.towerSpecs,
   calculateDestroyedTowerExp (boardTowers s) s.player0.id s.towerSpecs)

/-- The `*= 1.1` loop computes the power `(11/10)^n`. -/
theorem multiplierLoop_eq_pow (n : Nat) : multiplierLoop n = (11/10 : ℚ) ^ n := by
  induction n with
  | zero => rfl
  | succ n ih => rw [multiplierLoop, ih, pow_succ]

/-- `CalculateRequiredExp` is at least 100 for every level `≥ 1`. -/
theorem calculateRequiredExp_ge (level : Int) (h : 1 ≤ level) :
    100 ≤ CalculateRequiredExp level := by
  unfold CalculateRequiredExp
  rcases eq_or_lt_of_le h with h1 | h1
  · simp [← h1]
  · have hne : ¬ level < 1 := by omega
    have hne1 : ¬ level = 1 := by omega
    simp only [hne, hne1, if_false, multiplierLoop_eq_pow]
    have hpow : (1 : ℚ) ≤ (11/10 : ℚ) ^ (level - 1).toNat :=
      one_le_pow₀ (by norm_num)
    have h100 : (100 : ℚ) ≤ 100 * (11/10 : ℚ) ^ (level - 1).toNat := by
      nlinarith
    rw [goInt_eq_floor _ (by nlinarith)]
    exact Int.le_floor.mpr (by exact_mod_cast h100)

/-- The level-up loop of `handleGameOver` (`session.go:553-562` and
`566-575`): while the accumulated EXP reaches the requirement for the
current level, increment the level and subtract the requirement.  Returns
the final `(EXP, level)`. -/
def applyLevelUps (exp level : Int) : Int × Int :=
  if h : CalculateRequiredExp level ≤ exp then
    applyLevelUps (exp - CalculateRequiredExp level) (level + 1)
  else (exp, level)
termination_by ((1 - level).toNat, exp.toNat)
decreasing_by
  simp_wf
  by_cases hl : 1 ≤ level
  · have hreq : 100 ≤ CalculateRequiredExp level := calculateRequiredExp_ge level hl
    have h0 : (-level).toNat = 0 := by omega
    have h1 : (1 - level).toNat = 0 := by omega
    rw [h0, h1]
    exact Prod.Lex.right 0 (by omega)
  · exact Prod.Lex.left _ _ (by omega)

/-! ## Invariants -/

/-- HP bookkeeping invariant for one tower: `0 ≤ current HP ≤ max HP`. -/
def TowerInBounds (t : Tower) : Prop :=
  0 ≤ t.currentHP ∧ t.currentHP ≤ t.maxHP

/-- All three towers of a player are within HP bounds. -/
def TowersInBounds (p : PlayerTowers) : Prop :=
  ∀ slot, TowerInBounds (p.get slot)

/-- Both players' towers are within HP bounds. -/
def StInv (s : GameSt) : Prop :=
  TowersInBounds s.player0.towers ∧ TowersInBounds s.player1.towers

instance (t : Tower) : Decidable (TowerInBounds t) := by
  unfold TowerInBounds; infer_instance

instance (p : PlayerTowers) : Decidable (TowersInBounds p) := by
  unfold TowersInBounds
  exact decidable_of_iff
    (TowerInBounds p.king ∧ TowerInBounds p.guard1 ∧ TowerInBounds p.guard2)
    (by constructor
        · rintro ⟨h1, h2, h3⟩ slot; cases slot <;> assumption
        · intro h; exact ⟨h TowerSlot.king, h TowerSlot.guard1, h TowerSlot.guard2⟩)

instance (s : GameSt) : Decidable (StInv s) := by
  unfold StInv; infer_instance

/-! ## Concrete example data (the unit-catalog values of the repository's
configuration: King Tower 2000/500/300 yielding 200 EXP, Guard Tower
1000/300/100 yielding 100 EXP, Pawn 50/150/100, Knight 200/300/150, and the
healer Queen). -/

/-- Example King Tower catalog entry. -/
def exKingSpec : TowerSpec :=
  { name := "King Tower", baseHP := 2000, baseATK := 500, baseDEF := 300,
    critChance := mkRat 1 10, expYield := 200 }

/-- Example Guard Tower catalog entry. -/
def exGuardSpec : TowerSpec :=
  { name := "Guard Tower", baseHP := 1000, baseATK := 300, baseDEF := 100,
    critChance := mkRat 1 20, expYield := 100 }

/-- Example tower catalog. -/
def exTowerSpecs : List (String × TowerSpec) :=
  [("king_tower", exKingSpec), ("guard_tower", exGuardSpec)]

/-- Example troop catalog. -/
def exTroopSpecs : List (String × TroopSpec) :=
  [("pawn",
    { name := "Pawn", baseHP := 50, baseATK := 150, baseDEF := 100,
      manaCost := 3, expYield := 5 }),
   ("knight",
    { name := "Knight", baseHP := 200, baseATK := 300, baseDEF := 150,
      manaCost := 5, expYield := 25 }),
   ("queen",
    { name := "Queen", baseHP := 0, baseATK := 0, baseDEF := 0,
      manaCost := 5, expYield := 30 })]

/-- A concrete tower (for building example states). -/
def mkExTower (specID name : String) (hp maxHP atk defense : Int)
    (owner : String) : Tower :=
  { specID := specID, name := name, currentHP := hp, maxHP := maxHP,
    atk := atk, defense := defense, ownerPlayerID := owner, targetID := none }

/-- The towers `createPlayerTowers` builds for a level-1 player `pid`. -/
def exTowers (pid : String) : PlayerTowers :=
  { king := mkExTower "king_tower" "King Tower" 2000 2000 500 300 pid
    guard1 := mkExTower "guard_tower" "Guard Tower 1" 1000 1000 300 100 pid
    guard2 := mkExTower "guard_tower" "Guard Tower 2" 1000 1000 300 100 pid }

/-- A knight of player `p1`, deployed at time 0 (eligible to attack),
currently targeting the opponent's guard-1 tower. -/
def exKnight : ActiveTroop :=
  { instanceID := 7, specID := "knight", name := "Knight", currentHP := 200,
    maxHP := 200, atk := 300, defense := 150, ownerPlayerID := "p1",
    targetID := some TowerSlot.guard1, deployedTime := 0 }

/-- A running Simple-mode match: player 0 (`p1`) to move, owning one
knight deployed two turns ago; both players' towers at full HP. -/
def exState : GameSt :=
  { gameState := GameState.runningSimple
    currentTurnPlayerIndex := 0
    player0 := { id := "p1", username := "alice", level := 1,
                 towers := exTowers "p1", activeTroops := [exKnight] }
    player1 := { id := "p2", username := "bob", level := 1,
                 towers := exTowers "p2", activeTroops := [] }
    troopSpecs := exTroopSpecs
    towerSpecs := exTowerSpecs
    winnerID := none
    loserID := none
    nextInstanceID := 100
    now := 10 }

/-- A finished match built on `exState`: player 2's king tower (EXP yield
200) and guard-1 tower (EXP yield 100) are destroyed; player 1 won. -/
def exFinState : GameSt :=
  { exState with
    gameState := GameState.finished
    winnerID := some "p1"
    loserID := some "p2"
    player0 := { exState.player0 with activeTroops := [] }
    player1 :=
      { exState.player1 with
        towers :=
          { king := mkExTower "king_tower" "King Tower" 0 2000 500 300 "p2"
            guard1 := mkExTower "guard_tower" "Guard Tower 1" 0 1000 300 100 "p2"
            guard2 := mkExTower "guard_tower" "Guard Tower 2" 650 1000 300 100 "p2" } } }

/-! ## Claim C2 — tower stat scaling at match start -/

set_option maxRecDepth 16384 in
/-- Claim C2, counterexample: at player level 3, `createPlayerTowers` builds
the king tower with MaxHP `int(2000 * (1.0 + 0.1*(3-1))) = 2400`, whereas
the claimed formula `⌊base × 1.1^(level−1)⌋` (the `CalculateStatBoost`
multiplier) gives `⌊2000 × 1.21⌋ = 2420`. -/
theorem C2_counterexample :
    (createPlayerTowers "p1" 3 exTowerSpecs).map (fun pt => pt.king.maxHP) =
      some 2400 ∧
    goInt ((2000 : ℚ) * CalculateStatBoost 3) = 2420 ∧
    (createPlayerTowers "p1" 3 exTowerSpecs).map (fun pt => pt.king.maxHP) ≠
      some (goInt ((2000 : ℚ) * CalculateStatBoost 3)) := by
  have h1 : (createPlayerTowers "p1" 3 exTowerSpecs).map (fun pt => pt.king.maxHP) =
      some 2400 := by decide
  have h2 : goInt ((2000 : ℚ) * CalculateStatBoost 3) = 2420 := by
    have hq : (2000 : ℚ) * CalculateStatBoost 3 = 2420 := by
      norm_num [CalculateStatBoost, multiplierLoop]
    rw [hq, goInt_eq_floor _ (by norm_num)]
    norm_num
  refine ⟨h1, h2, ?_⟩
  rw [h1, h2]
  decide

/-- Claim C2, amended: at match start, for every player level, each created
tower's CurrentHP, MaxHP, ATK and DEF equal the catalog base stat multiplied
by the linear level factor `1.0 + 0.1*(level-1)` — not `1.1^(level−1)` —
with the factor and the product evaluated in binary64 floating-point
exactly as the program computes them, and the result truncated toward
zero. -/
theorem C2_amended (pid : String) (level : Int)
    (specs : List (String × TowerSpec)) (kingSpec guardSpec : TowerSpec)
    (hk : specs.lookup "king_tower" = some kingSpec)
    (hg : specs.lookup "guard_tower" = some guardSpec) :
    ∃ pt, createPlayerTowers pid level specs = some pt ∧
      (pt.king.currentHP =
          (FP.mul (FP.ofInt kingSpec.baseHP)
            (FP.add oneF (FP.mul pointOneF (FP.ofInt (level - 1))))).toInt ∧
        pt.king.maxHP =
          (FP.mul (FP.ofInt kingSpec.baseHP)
            (FP.add oneF (FP.mul pointOneF (FP.ofInt (level - 1))))).toInt ∧
        pt.king.atk =
          (FP.mul (FP.ofInt kingSpec.baseATK)
            (FP.add oneF (FP.mul pointOneF (FP.ofInt (level - 1))))).toInt ∧
        pt.king.defense =
          (FP.mul (FP.ofInt kingSpec.baseDEF)
            (FP.add oneF (FP.mul pointOneF (FP.ofInt (level - 1))))).toInt) ∧
      (∀ g ∈ [pt.guard1, pt.guard2],
        g.currentHP =
          (FP.mul (FP.ofInt guardSpec.baseHP)
            (FP.add oneF (FP.mul pointOneF (FP.ofInt (level - 1))))).toInt ∧
        g.maxHP =
          (FP.mul (FP.ofInt guardSpec.baseHP)
            (FP.add oneF (FP.mul pointOneF (FP.ofInt (level - 1))))).toInt ∧
        g.atk =
          (FP.mul (FP.ofInt guardSpec.baseATK)
            (FP.add oneF (FP.mul pointOneF (FP.ofInt (level - 1))))).toInt ∧
        g.defense =
          (FP.mul (FP.ofInt guardSpec.baseDEF)
            (FP.add oneF (FP.mul pointOneF (FP.ofInt (level - 1))))).toInt) := by
  refine ⟨_, by rw [createPlayerTowers, hk, hg], ?_, ?_⟩
  · exact ⟨rfl, rfl, rfl, rfl⟩
  · intro g hgm
    simp only [List.mem_cons, List.not_mem_nil, or_false] at hgm
    rcases hgm with h | h <;>
      · subst h
        exact ⟨rfl, rfl, rfl, rfl⟩

set_option maxRecDepth 16384 in
/-- Claim C2, witness: the amended statement at level 3 with the example
catalog, together with the evaluated king-tower stat
(`int(2000.0 * 1.2float64) = 2400`). -/
theorem C2_witness :
    scaledStat 2000 3 = 2400 ∧
    ∃ pt, createPlayerTowers "p1" 3 exTowerSpecs = some pt ∧
      (pt.king.currentHP =
          (FP.mul (FP.ofInt exKingSpec.baseHP)
            (FP.add oneF (FP.mul pointOneF (FP.ofInt (3 - 1))))).toInt ∧
        pt.king.maxHP =
          (FP.mul (FP.ofInt exKingSpec.baseHP)
            (FP.add oneF (FP.mul pointOneF (FP.ofInt (3 - 1))))).toInt ∧
        pt.king.atk =
          (FP.mul (FP.ofInt exKingSpec.baseATK)
            (FP.add oneF (FP.mul pointOneF (FP.ofInt (3 - 1))))).toInt ∧
        pt.king.defense =
          (FP.mul (FP.ofInt exKingSpec.baseDEF)
            (FP.add oneF (FP.mul pointOneF (FP.ofInt (3 - 1))))).toInt) ∧
      (∀ g ∈ [pt.guard1, pt.guard2],
        g.currentHP =
          (FP.mul (FP.ofInt exGuardSpec.baseHP)
            (FP.add oneF (FP.mul pointOneF (FP.ofInt (3 - 1))))).toInt ∧
        g.maxHP =
          (FP.mul (FP.ofInt exGuardSpec.baseHP)
            (FP.add oneF (FP.mul pointOneF (FP.ofInt (3 - 1))))).toInt ∧
        g.atk =
          (FP.mul (FP.ofInt exGuardSpec.baseATK)
            (FP.add oneF (FP.mul pointOneF (FP.ofInt (3 - 1))))).toInt ∧
        g.defense =
          (FP.mul (FP.ofInt exGuardSpec.baseDEF)
            (FP.add oneF (FP.mul pointOneF (FP.ofInt (3 - 1))))).toInt) :=
  ⟨by decide, C2_amended "p1" 3 exTowerSpecs exKingSpec exGuardSpec rfl rfl⟩

/-! ## Claim C3 — win/draw settlement bonuses -/

/-- Claim C3, counterexample: in a finished match where the winner destroyed
towers worth 300 EXP, `handleGameOver` credits the winner exactly the
destroyed-tower sum 300, not the sum plus a win bonus of 30. -/
theorem C3_counterexample :
    exFinState.winnerID = some exFinState.player0.id ∧
    (handleGameOverExp exFinState).1 = 300 ∧
    (handleGameOverExp exFinState).1 ≠
      calculateDestroyedTowerExp (boardTowers exFinState) exFinState.player1.id
        exFinState.towerSpecs + 30 := by
  refine ⟨by decide, by decide, by decide⟩

/-- Claim C3, amended: the settlement adds no win or draw bonus at all —
each player's earned experience is exactly the destroyed-tower EXP sum, and
it is unchanged when the recorded winner, loser or terminal game state is
varied. -/
theorem C3_amended (s : GameSt) (w l : Option String) (g : GameState) :
    handleGameOverExp { s with winnerID := w, loserID := l, gameState := g } =
      handleGameOverExp s ∧
    (handleGameOverExp s).1 =
      calculateDestroyedTowerExp (boardTowers s) s.player1.id s.towerSpecs ∧
    (handleGameOverExp s).2 =
      calculateDestroyedTowerExp (boardTowers s) s.player0.id s.towerSpecs :=
  ⟨rfl, rfl, rfl⟩

/-! ## Claim C10 — settlement experience comes from towers only -/

/-- Unfolding `calculateDestroyedTowerExp`'s running sum into a closed
filter/map/sum form. -/
theorem calculateDestroyedTowerExp_eq_sum (pid : String)
    (specs : List (String × TowerSpec)) (board : List Tower) :
    calculateDestroyedTowerExp board pid specs =
      ((board.filter (fun t =>
          decide (t.ownerPlayerID = pid ∧ t.currentHP ≤ 0))).map
        (fun t => ((specs.lookup t.specID).map TowerSpec.expYield).getD 0)).sum := by
  suffices h : ∀ (board : List Tower) (acc : Int),
      board.foldl
        (fun (expGained : Int) (tower : Tower) =>
          if tower.ownerPlayerID = pid ∧ tower.currentHP ≤ 0 then
            match specs.lookup tower.specID with
            | some spec => expGained + spec.expYield
            | none => expGained
          else expGained) acc =
      acc + ((board.filter (fun t =>
          decide (t.ownerPlayerID = pid ∧ t.currentHP ≤ 0))).map
        (fun t => ((specs.lookup t.specID).map TowerSpec.expYield).getD 0)).sum by
    have := h board 0
    simpa [calculateDestroyedTowerExp] using this
  intro board
  induction board with
  | nil => intro acc; simp
  | cons hd tl ih =>
      intro acc
      by_cases hc : hd.ownerPlayerID = pid ∧ hd.currentHP ≤ 0
      · rcases hlk : specs.lookup hd.specID with _ | spec
        · simp [List.foldl_cons, hc, hlk, ih, List.filter_cons]
        · simp [List.foldl_cons, hc, hlk, ih, List.filter_cons]
          ring
      · simp [List.foldl_cons, hc, ih, List.filter_cons]

/-- Claim C10: each player's settlement experience is exactly the sum of
the catalog `ExpYield` over the opponent's destroyed (HP `≤ 0`) towers, and
it does not depend on either player's troop collection in any way (destroyed
troops contribute nothing, despite `TroopSpec` also carrying an `ExpYield`
field). -/
theorem C10_exp_towers_only (s : GameSt) (ts0 ts1 : List ActiveTroop) :
    handleGameOverExp s =
      (((boardTowers s).filter (fun t =>
          decide (t.ownerPlayerID = s.player1.id ∧ t.currentHP ≤ 0))).map
        (fun t => ((s.towerSpecs.lookup t.specID).map TowerSpec.expYield).getD 0)
        |>.sum,
       ((boardTowers s).filter (fun t =>
          decide (t.ownerPlayerID = s.player0.id ∧ t.currentHP ≤ 0))).map
        (fun t => ((s.towerSpecs.lookup t.specID).map TowerSpec.expYield).getD 0)
        |>.sum) ∧
    handleGameOverExp
        { s with player0 := { s.player0 with activeTroops := ts0 }
                 player1 := { s.player1 with activeTroops := ts1 } } =
      handleGameOverExp s := by
  constructor
  · unfold handleGameOverExp
    rw [calculateDestroyedTowerExp_eq_sum, calculateDestroyedTowerExp_eq_sum]
  · rfl

/-! ## Claim C9 — experience requirement and repeated leveling -/

/-- Claim C9: the experience required for the next level is 100 at level 1
and the integer truncation of `100 × 1.1^(level−1)` for every level `≥ 2`,
and the settlement level-up loop runs while `EXP ≥ requirement`,
incrementing the level and subtracting the requirement each time, so the
final EXP is below the final level's requirement and the whole EXP amount
is conserved (excess carried over, multi-level jumps included). -/
theorem C9_progression :
    CalculateRequiredExp 1 = 100 ∧
    (∀ level : Int, 2 ≤ level →
      CalculateRequiredExp level =
        goInt ((100 : ℚ) * (11/10) ^ (level - 1).toNat)) ∧
    (∀ exp level : Int, 1 ≤ level → 0 ≤ exp →
      level ≤ (applyLevelUps exp level).2 ∧
      0 ≤ (applyLevelUps exp level).1 ∧
      (applyLevelUps exp level).1 <
        CalculateRequiredExp (applyLevelUps exp level).2 ∧
      (applyLevelUps exp level).1 +
          ∑ i ∈ Finset.range ((applyLevelUps exp level).2 - level).toNat,
            CalculateRequiredExp (level + i) = exp) := by
  refine ⟨by decide, ?_, ?_⟩
  · intro level h2
    unfold CalculateRequiredExp
    have hne : ¬ level < 1 := by omega
    have hne1 : ¬ level = 1 := by omega
    simp [hne, hne1, multiplierLoop_eq_pow]
  · intro exp level
    induction exp, level using applyLevelUps.induct with
    | case1 exp level hle ih =>
        intro hlevel hexp
        have hreq : 100 ≤ CalculateRequiredExp level :=
          calculateRequiredExp_ge level hlevel
        have heq : applyLevelUps exp level =
            applyLevelUps (exp - CalculateRequiredExp level) (level + 1) := by
          rw [applyLevelUps]
          simp [hle]
        obtain ⟨ih1, ih2, ih3, ih4⟩ := ih (by omega) (by omega)
        rw [heq]
        refine ⟨by omega, ih2, ih3, ?_⟩
        set r := applyLevelUps (exp - CalculateRequiredExp level) (level + 1)
          with hr
        have hn : (r.2 - level).toNat = (r.2 - (level + 1)).toNat + 1 := by
          omega
        rw [hn, Finset.sum_range_succ']
        have hshift :
            ∑ i ∈ Finset.range (r.2 - (level + 1)).toNat,
              CalculateRequiredExp (level + ((i : Int) + 1)) =
            ∑ i ∈ Finset.range (r.2 - (level + 1)).toNat,
              CalculateRequiredExp (level + 1 + (i : Int)) := by
          refine Finset.sum_congr rfl fun i _ => ?_
          congr 1
          ring
        have hc : ∀ k : ℕ, CalculateRequiredExp (level + ((k : Int) + 1)) =
            CalculateRequiredExp (level + ((k + 1 : ℕ) : Int)) := by
          intro k
          have hk : (k : Int) + 1 = ((k + 1 : ℕ) : Int) := by push_cast; ring
          rw [hk]
        simp only [← hc] at *
        rw [hshift]
        simp only [Nat.cast_zero, add_zero]
        linarith [ih4]
    | case2 exp level hgt =>
        intro hlevel hexp
        have heq : applyLevelUps exp level = (exp, level) := by
          rw [applyLevelUps]
          simp [hgt]
        rw [heq]
        refine ⟨le_refl _, hexp, by simpa using hgt, ?_⟩
        simp

/-- Claim C9, witness: a level-1 player with 250 EXP levels up twice
(requirements 100 then 110) and carries 40 EXP over. -/
theorem C9_witness :
    applyLevelUps 250 1 = (40, 3) ∧
    (1 ≤ (applyLevelUps 250 1).2 ∧
      0 ≤ (applyLevelUps 250 1).1 ∧
      (applyLevelUps 250 1).1 <
        CalculateRequiredExp (applyLevelUps 250 1).2 ∧
      (applyLevelUps 250 1).1 +
          ∑ i ∈ Finset.range ((applyLevelUps 250 1).2 - 1).toNat,
            CalculateRequiredExp (1 + i) = 250) := by
  have h2 : CalculateRequiredExp 2 = 110 := by
    have ht : ((2 : Int) - 1).toNat = 1 := by decide
    have hq : (100 : ℚ) * multiplierLoop ((2 : Int) - 1).toNat = 110 := by
      rw [ht]
      norm_num [multiplierLoop]
    unfold CalculateRequiredExp
    rw [if_neg (by omega), if_neg (by omega), hq,
      goInt_eq_floor _ (by norm_num)]
    norm_num
  have h3 : CalculateRequiredExp 3 = 121 := by
    have ht : ((3 : Int) - 1).toNat = 2 := by decide
    have hq : (100 : ℚ) * multiplierLoop ((3 : Int) - 1).toNat = 121 := by
      rw [ht]
      norm_num [multiplierLoop]
    unfold CalculateRequiredExp
    rw [if_neg (by omega), if_neg (by omega), hq,
      goInt_eq_floor _ (by norm_num)]
    norm_num
  have hsteps : applyLevelUps 250 1 = (40, 3) := by
    rw [applyLevelUps]
    simp only [show CalculateRequiredExp 1 = 100 by decide]
    norm_num
    rw [applyLevelUps]
    simp only [h2]
    norm_num
    rw [applyLevelUps]
    simp only [h3]
    norm_num
  have hmain := (C9_progression.2.2) 250 1 (by norm_num) (by norm_num)
  exact ⟨hsteps, hmain⟩

/-! ## Claim C4 — the Targeting Rule -/

/-- Complete case characterization of `findValidTarget`. -/
theorem findValidTarget_eq (opp : PlayerTowers) :
    findValidTarget opp =
      if 0 < opp.guard1.currentHP then some TowerSlot.guard1
      else if 0 < opp.guard2.currentHP then
        if 0 < opp.king.currentHP then
          if opp.king.currentHP < opp.guard2.currentHP then some TowerSlot.king
          else some TowerSlot.guard2
        else some TowerSlot.guard2
      else if 0 < opp.king.currentHP then some TowerSlot.king
      else none := by
  unfold findValidTarget
  split_ifs <;> simp_all [PlayerTowers.get, List.foldl]

/-- Claim C4: the target-selection function returns guard-1 whenever guard-1
is alive; once guard-1 is destroyed it returns whichever of guard-2 and the
king tower is alive with the lower absolute current HP (guard-2 on ties,
the deterministic tie-break); and it returns no target exactly when no
opposing tower has HP > 0. -/
theorem C4_targeting (opp : PlayerTowers) :
    (0 < opp.guard1.currentHP → findValidTarget opp = some TowerSlot.guard1) ∧
    (opp.guard1.currentHP ≤ 0 → 0 < opp.guard2.currentHP →
      0 < opp.king.currentHP →
      findValidTarget opp =
        some (if opp.king.currentHP < opp.guard2.currentHP then TowerSlot.king
              else TowerSlot.guard2)) ∧
    (opp.guard1.currentHP ≤ 0 → 0 < opp.guard2.currentHP →
      opp.king.currentHP ≤ 0 → findValidTarget opp = some TowerSlot.guard2) ∧
    (opp.guard1.currentHP ≤ 0 → opp.guard2.currentHP ≤ 0 →
      0 < opp.king.currentHP → findValidTarget opp = some TowerSlot.king) ∧
    (findValidTarget opp = none ↔
      opp.guard1.currentHP ≤ 0 ∧ opp.guard2.currentHP ≤ 0 ∧
        opp.king.currentHP ≤ 0) := by
  rw [findValidTarget_eq]
  refine ⟨?_, ?_, ?_, ?_, ?_⟩
  · intro h1
    rw [if_pos h1]
  · intro h1 h2 h3
    rw [if_neg (by omega), if_pos h2, if_pos h3]
    split_ifs with h4 <;> rfl
  · intro h1 h2 h3
    rw [if_neg (by omega), if_pos h2, if_neg (by omega)]
  · intro h1 h2 h3
    rw [if_neg (by omega), if_neg (by omega), if_pos h3]
  · constructor
    · intro h
      by_contra hc
      push_neg at hc
      split_ifs at h <;> simp_all
    · rintro ⟨h1, h2, h3⟩
      rw [if_neg (by omega), if_neg (by omega), if_neg (by omega)]

/-- Claim C4, witness: with guard-1 destroyed, guard-2 at 700 HP and the
king at 500 HP, the king (lower absolute HP) is selected. -/
theorem C4_witness :
    findValidTarget
      { king := mkExTower "king_tower" "King Tower" 500 2000 500 300 "p2"
        guard1 := mkExTower "guard_tower" "Guard Tower 1" 0 1000 300 100 "p2"
        guard2 := mkExTower "guard_tower" "Guard Tower 2" 700 1000 300 100 "p2" } =
      some (if (500 : Int) < 700 then TowerSlot.king else TowerSlot.guard2) :=
  (C4_targeting _).2.1 (by decide) (by decide) (by decide)

/-- `findValidTarget` only ever returns a live tower. -/
theorem findValidTarget_alive (opp : PlayerTowers) (t : TowerSlot)
    (h : findValidTarget opp = some t) : 0 < (opp.get t).currentHP := by
  rw [findValidTarget_eq] at h
  split_ifs at h <;>
    first
      | (injection h with h; subst h; simp only [PlayerTowers.get]; omega)
      | cases h

/-- The attack loop's resolved target is always a live tower. -/
theorem resolveTarget_alive (opp : PlayerTowers) (cur : Option TowerSlot)
    (tgt : TowerSlot) (rt : Bool) (h : resolveTarget opp cur = some (tgt, rt)) :
    0 < (opp.get tgt).currentHP := by
  unfold resolveTarget at h
  cases cur with
  | none =>
      dsimp only at h
      cases hf : findValidTarget opp with
      | none => rw [hf] at h; cases h
      | some t =>
          rw [hf] at h
          injection h with h
          cases h
          exact findValidTarget_alive _ _ hf
  | some t =>
      dsimp only at h
      split_ifs at h with hdead
      · cases hf : findValidTarget opp with
        | none => rw [hf] at h; cases h
        | some u =>
            rw [hf] at h
            injection h with h
            cases h
            exact findValidTarget_alive _ _ hf
      · injection h with h
        cases h
        omega

/-- Replacing a live tower by a destroyed one strictly lowers the number
of live towers. -/
theorem aliveCount_set_dead (opp : PlayerTowers) (tgt : TowerSlot)
    (t : Tower) (h0 : t.currentHP ≤ 0)
    (halive : 0 < (opp.get tgt).currentHP) :
    aliveCount (opp.set tgt t) < aliveCount opp := by
  cases tgt <;>
    · simp only [aliveCount, PlayerTowers.set, PlayerTowers.get] at *
      split_ifs <;> omega

/-- With fuel exceeding the number of live opponent towers, the attack loop
never exhausts its fuel: each continuing iteration destroys one live tower,
exactly as the unbounded Go loop progresses. -/
theorem troopAttackLoop_no_exhaust (fuel : Nat) (k : Int)
    (opp : PlayerTowers) (tr : TroopCombat) (h : aliveCount opp < fuel) :
    (troopAttackLoop fuel k opp tr).fuelExhausted = false := by
  induction fuel generalizing opp tr with
  | zero => omega
  | succ n ih =>
      rw [troopAttackLoop]
      split
      · split
        · rfl
        · rename_i tgt rt heq
          dsimp only
          split
          · split
            · rfl
            · dsimp only
              apply ih
              have halive := resolveTarget_alive _ _ _ _ heq
              exact lt_of_lt_of_le
                (aliveCount_set_dead opp tgt _ (le_refl 0) halive)
                (Nat.lt_succ_iff.mp h)
          · rfl
      · rfl

/-! ## Claim C6 — queen deployment heals, never spawns -/

/-- Reading the slot just written. -/
theorem PlayerTowers.get_set_same (p : PlayerTowers) (s : TowerSlot) (t : Tower) :
    (p.set s t).get s = t := by
  cases s <;> rfl

/-- Reading another slot than the one written. -/
theorem PlayerTowers.get_set_other (p : PlayerTowers) (s : TowerSlot) (t : Tower)
    (u : TowerSlot) (h : u ≠ s) : (p.set s t).get u = p.get u := by
  cases s <;> cases u <;> first | rfl | exact absurd rfl h

/-- Case analysis on `processQueenHealing`: either no tower is healed (every
live tower is at 100%), or the first live tower with the strictly lowest HP
percentage is healed by 300 capped at its MaxHP. -/
theorem processQueenHealing_cases (pt : PlayerTowers) :
    processQueenHealing pt = pt ∨
    ∃ s, 0 < (pt.get s).currentHP ∧
      hpPercentage (pt.get s) < 100 ∧
      (∀ u, 0 < (pt.get u).currentHP →
        hpPercentage (pt.get s) ≤ hpPercentage (pt.get u)) ∧
      processQueenHealing pt =
        pt.set s { pt.get s with currentHP :=
          if (pt.get s).currentHP + 300 > (pt.get s).maxHP then (pt.get s).maxHP
          else (pt.get s).currentHP + 300 } := by
  unfold processQueenHealing
  simp only [List.foldl, PlayerTowers.get]
  split_ifs <;>
    first
      | exact Or.inl rfl
      | exact Or.inr ⟨_,
          by simp only [PlayerTowers.get, Prod.snd] at *; omega,
          by simp only [PlayerTowers.get, Prod.snd] at *; linarith,
          fun u hu => by
            cases u <;> simp only [PlayerTowers.get, Prod.snd] at * <;>
              first | linarith | omega,
          rfl⟩

/-- Claim C6: deploying the queen never creates a troop instance
(`deployTroop` returns the state unchanged, so no `ActiveTroop` is added to
any collection), and the healing step preserves every tower's MaxHP, never
raises HP above MaxHP, and only ever changes a tower that is alive and has
the (weakly) lowest HP percentage among the player's live towers, raising
its HP by 300 capped at MaxHP. -/
theorem C6_queen (s : GameSt) (pi : Int)
    (hq : (s.troopSpecs.lookup "queen").isSome)
    (pt : PlayerTowers) (hinv : TowersInBounds pt) :
    deployTroop s pi "queen" = some s ∧
    (∀ slot, ((processQueenHealing pt).get slot).maxHP = (pt.get slot).maxHP ∧
      ((processQueenHealing pt).get slot).currentHP ≤ (pt.get slot).maxHP) ∧
    (∀ slot, (processQueenHealing pt).get slot ≠ pt.get slot →
      0 < (pt.get slot).currentHP ∧
      ((processQueenHealing pt).get slot).currentHP =
        min ((pt.get slot).currentHP + 300) (pt.get slot).maxHP ∧
      ∀ u, 0 < (pt.get u).currentHP →
        hpPercentage (pt.get slot) ≤ hpPercentage (pt.get u)) := by
  refine ⟨?_, ?_, ?_⟩
  · unfold deployTroop
    obtain ⟨spec, hspec⟩ := Option.isSome_iff_exists.mp hq
    rw [hspec]
    simp
  · intro slot
    rcases processQueenHealing_cases pt with h | ⟨t, halive, hlt, hmin, heq⟩
    · rw [h]
      exact ⟨rfl, (hinv slot).2⟩
    · rw [heq]
      by_cases hts : slot = t
      · subst hts
        rw [PlayerTowers.get_set_same]
        refine ⟨rfl, ?_⟩
        dsimp only
        split_ifs with hcap <;> omega
      · rw [PlayerTowers.get_set_other _ _ _ _ hts]
        exact ⟨rfl, (hinv slot).2⟩
  · intro slot hne
    rcases processQueenHealing_cases pt with h | ⟨t, halive, hlt, hmin, heq⟩
    · rw [h] at hne
      exact absurd rfl hne
    · rw [heq] at hne ⊢
      by_cases hts : slot = t
      · subst hts
        refine ⟨halive, ?_, hmin⟩
        rw [PlayerTowers.get_set_same]
        dsimp only
        rw [min_def]
        split_ifs <;> omega
      · rw [PlayerTowers.get_set_other _ _ _ _ hts] at hne
        exact absurd rfl hne

/-- Towers of a player whose guard-1 was damaged to 10% HP and whose king
is at 80% HP (the queen-heal scenario). -/
def exQueenTowers : PlayerTowers :=
  { king := mkExTower "king_tower" "King Tower" 1600 2000 500 300 "p1"
    guard1 := mkExTower "guard_tower" "Guard Tower 1" 100 1000 300 100 "p1"
    guard2 := mkExTower "guard_tower" "Guard Tower 2" 1000 1000 300 100 "p1" }

/-- Claim C6, witness: the queen deploy on the example state creates no
troop, and healing the example towers keeps guard-1 within its MaxHP. -/
theorem C6_witness :
    deployTroop exState 0 "queen" = some exState ∧
    ((processQueenHealing exQueenTowers).get TowerSlot.guard1).maxHP =
      (exQueenTowers.get TowerSlot.guard1).maxHP ∧
    ((processQueenHealing exQueenTowers).get TowerSlot.guard1).currentHP ≤
      (exQueenTowers.get TowerSlot.guard1).maxHP := by
  have h := C6_queen exState 0 (by decide) exQueenTowers (by decide)
  exact ⟨h.1, (h.2.1 TowerSlot.guard1).1, (h.2.1 TowerSlot.guard1).2⟩

/-! ## Claim C7 — structurally invalid actions are rejected without
mutation -/

/-- Claim C7: a turn submission that is out of turn, or arrives when the
match is not in the running-Simple state, or carries an unknown action, a
malformed payload, or an unknown troop id, makes `ProcessTurn` return an
error and leave the match state exactly as it was. -/
theorem C7_invalid_rejected (s : GameSt) (playerIndex : Int) (action : String)
    (troopID? : Option String)
    (hbad : playerIndex ≠ s.currentTurnPlayerIndex ∨
      s.gameState ≠ GameState.runningSimple ∨
      action ≠ "deploy_troop" ∨
      ∀ tid, troopID? = some tid → s.troopSpecs.lookup tid = none) :
    (ProcessTurn s playerIndex action troopID?).1.isSome ∧
    (ProcessTurn s playerIndex action troopID?).2 = s := by
  unfold ProcessTurn
  split_ifs with h1 h2 h3
  · exact ⟨rfl, rfl⟩
  · exact ⟨rfl, rfl⟩
  · cases troopID? with
    | none => exact ⟨rfl, rfl⟩
    | some tid =>
        have hlk : s.troopSpecs.lookup tid = none := by
          rcases hbad with hb | hb | hb | hb
          · exact absurd hb.symm h1
          · exact absurd hb h2
          · exact absurd h3 hb
          · exact hb tid rfl
        have hd : deployTroop s playerIndex tid = none := by
          unfold deployTroop
          rw [hlk]
        dsimp only
        rw [hd]
        exact ⟨rfl, rfl⟩
  · exact ⟨rfl, rfl⟩

/-- Claim C7, witness: player 1 submitting on player 0's turn is rejected
and the state is byte-for-byte unchanged. -/
theorem C7_witness :
    (ProcessTurn exState 1 "deploy_troop" (some "pawn")).1.isSome ∧
    (ProcessTurn exState 1 "deploy_troop" (some "pawn")).2 = exState :=
  C7_invalid_rejected exState 1 "deploy_troop" (some "pawn")
    (Or.inl (by decide))

/-! ## Claim C8 — HP bounds hold after every turn -/

/-- `CalculateDamage` never returns negative damage. -/
theorem CalculateDamage_nonneg (a d : Int) : 0 ≤ CalculateDamage a d := by
  unfold CalculateDamage
  dsimp only
  split_ifs <;> omega

/-- Writing one in-bounds tower keeps the whole triple in bounds. -/
theorem TowersInBounds.set (pt : PlayerTowers) (hinv : TowersInBounds pt)
    (slot : TowerSlot) (t : Tower) (ht : TowerInBounds t) :
    TowersInBounds (pt.set slot t) := by
  intro u
  by_cases h : u = slot
  · subst h
    rw [PlayerTowers.get_set_same]
    exact ht
  · rw [PlayerTowers.get_set_other _ _ _ _ h]
    exact hinv u

/-- The healing step keeps every tower within `[0, MaxHP]`. -/
theorem processQueenHealing_inv (pt : PlayerTowers) (hinv : TowersInBounds pt) :
    TowersInBounds (processQueenHealing pt) := by
  rcases processQueenHealing_cases pt with h | ⟨t, halive, _, _, heq⟩
  · rw [h]
    exact hinv
  · rw [heq]
    refine TowersInBounds.set _ hinv t _ ?_
    have := hinv t
    unfold TowerInBounds at *
    dsimp only
    split_ifs <;> omega

/-- The attack loop keeps the opponent's towers within `[0, MaxHP]`:
damage only lowers HP and destruction clamps at exactly 0. -/
theorem troopAttackLoop_opp_inv (fuel : Nat) (k : Int) (opp : PlayerTowers)
    (tr : TroopCombat) (hinv : TowersInBounds opp) :
    TowersInBounds (troopAttackLoop fuel k opp tr).opp := by
  induction fuel generalizing opp tr with
  | zero => exact hinv
  | succ n ih =>
      rw [troopAttackLoop]
      split
      · split
        · exact hinv
        · rename_i tgt rt heq
          dsimp only
          split
          · rename_i hdes
            split
            · exact TowersInBounds.set _ hinv tgt _ ⟨le_refl 0, (hinv tgt).1.trans (hinv tgt).2⟩
            · dsimp only
              exact ih _ _ (TowersInBounds.set _ hinv tgt _ ⟨le_refl 0, (hinv tgt).1.trans (hinv tgt).2⟩)
          · rename_i hdes
            refine TowersInBounds.set _ hinv tgt _ ?_
            have hd := CalculateDamage_nonneg tr.atk (opp.get tgt).defense
            have := hinv tgt
            unfold TowerInBounds at *
            dsimp only at *
            omega
      · exact hinv

/-- The towers of player `i` are in bounds in an invariant state. -/
theorem StInv.getPlayer_towers (s : GameSt) (hinv : StInv s) (i : Int) :
    TowersInBounds (getPlayer s i).towers := by
  unfold getPlayer
  split_ifs
  · exact hinv.1
  · exact hinv.2

/-- Replacing a player by one with in-bounds towers keeps the invariant. -/
theorem StInv.setPlayer (s : GameSt) (hinv : StInv s) (i : Int) (p : PlayerSt)
    (hp : TowersInBounds p.towers) : StInv (setPlayer s i p) := by
  unfold TCR.setPlayer
  split_ifs
  · exact ⟨hp, hinv.2⟩
  · exact ⟨hinv.1, hp⟩

/-- Clearing last-attacker references does not change any HP bound. -/
theorem clearTowerTargets_inv (pt : PlayerTowers) (ids : List Nat)
    (hinv : TowersInBounds pt) : TowersInBounds (clearTowerTargets pt ids) := by
  intro u
  have hone : ∀ t : Tower, TowerInBounds t → TowerInBounds
      (match t.targetID with
        | some tid => if ids.contains tid then { t with targetID := none } else t
        | none => t) := by
    intro t ht
    rcases t.targetID with _ | tid
    · exact ht
    · dsimp only
      split_ifs
      · exact ht
      · exact ht
  cases u <;> exact hone _ (by first
    | exact hinv TowerSlot.king
    | exact hinv TowerSlot.guard1
    | exact hinv TowerSlot.guard2)

/-- Troop cleanup touches only troop collections and target references, so
the HP invariant survives it. -/
theorem cleanupDefeatedUnits_inv (s : GameSt) (hinv : StInv s) :
    StInv (cleanupDefeatedUnits s) := by
  unfold cleanupDefeatedUnits
  exact ⟨clearTowerTargets_inv _ _ hinv.1, clearTowerTargets_inv _ _ hinv.2⟩

/-- Terminal bookkeeping does not touch tower HP. -/
theorem applyGameOver_inv (s : GameSt) (w l : Int) (h : StInv s) :
    StInv (applyGameOver s w l) := h

/-- Passing the turn does not touch tower HP. -/
theorem nextTurn_inv (s : GameSt) (h : StInv s) : StInv (nextTurn s) := h

/-- The two successive player write-backs of `runTroopAttack` preserve the
invariant when the written towers are in bounds. -/
theorem runTroopAttack_core_inv (s : GameSt) (pi oi : Int)
    (tw : PlayerTowers) (htw : TowersInBounds tw) (ts : List ActiveTroop)
    (hinv : StInv s) :
    StInv (setPlayer (setPlayer s oi { getPlayer s oi with towers := tw }) pi
      { getPlayer (setPlayer s oi { getPlayer s oi with towers := tw }) pi with
        activeTroops := ts }) := by
  have h1 : StInv (setPlayer s oi { getPlayer s oi with towers := tw }) :=
    StInv.setPlayer _ hinv _ _ htw
  exact StInv.setPlayer _ h1 _ _ (StInv.getPlayer_towers _ h1 _)

/-- One troop's attack turn preserves the HP invariant. -/
theorem runTroopAttack_inv (s : GameSt) (pi : Int) (tid : Nat)
    (hinv : StInv s) : StInv (runTroopAttack s pi tid) := by
  unfold runTroopAttack
  dsimp only
  split
  · exact hinv
  · split_ifs with htime hflag
    · exact hinv
    · split
      · apply applyGameOver_inv
        exact runTroopAttack_core_inv _ _ _ _
          (troopAttackLoop_opp_inv _ _ _ _
            (StInv.getPlayer_towers _ hinv _)) _ hinv
      · exact runTroopAttack_core_inv _ _ _ _
          (troopAttackLoop_opp_inv _ _ _ _
            (StInv.getPlayer_towers _ hinv _)) _ hinv
    · exact runTroopAttack_core_inv _ _ _ _
        (troopAttackLoop_opp_inv _ _ _ _
          (StInv.getPlayer_towers _ hinv _)) _ hinv

/-- The whole attack phase preserves the HP invariant. -/
theorem processTroopAttacks_inv (s : GameSt) (pi : Int) (hinv : StInv s) :
    StInv (processTroopAttacks s pi) := by
  unfold processTroopAttacks
  apply cleanupDefeatedUnits_inv
  have hfold : ∀ (ids : List Nat) (s : GameSt), StInv s →
      StInv (ids.foldl (fun s tid => runTroopAttack s pi tid) s) := by
    intro ids
    induction ids with
    | nil => intro s h; exact h
    | cons hd tl ih =>
        intro s h
        exact ih _ (runTroopAttack_inv _ _ _ h)
  exact hfold _ _ hinv

/-- One tower's counterattack preserves the HP invariant (it only rewrites
troop HP). -/
theorem counterStep_inv (pi : Int) (acc : GameSt × List Nat)
    (slot : TowerSlot) (hinv : StInv acc.1) :
    StInv (counterStep pi acc slot).1 := by
  unfold counterStep
  dsimp only
  repeat' split
  all_goals
    first
      | exact hinv
      | exact StInv.setPlayer _ hinv _ _ (StInv.getPlayer_towers _ hinv _)

/-- The counterattack phase preserves the HP invariant. -/
theorem processTowerCounterattacks_inv (s : GameSt) (pi : Int)
    (hinv : StInv s) : StInv (processTowerCounterattacks s pi) := by
  unfold processTowerCounterattacks
  apply cleanupDefeatedUnits_inv
  have hfold : ∀ (slots : List TowerSlot) (acc : GameSt × List Nat),
      StInv acc.1 → StInv ((slots.foldl (counterStep pi) acc).1) := by
    intro slots
    induction slots with
    | nil => intro acc h; exact h
    | cons hd tl ih =>
        intro acc h
        exact ih _ (counterStep_inv _ _ _ h)
  exact hfold _ _ hinv

/-- Deploying a troop does not touch any tower. -/
theorem deployTroop_inv (s : GameSt) (pi : Int) (tid : String) (s1 : GameSt)
    (hd : deployTroop s pi tid = some s1) (hinv : StInv s) : StInv s1 := by
  unfold deployTroop at hd
  split at hd
  · exact absurd hd (by simp)
  · split_ifs at hd with hq
    · cases hd
      exact hinv
    · dsimp only at hd
      cases hd
      exact StInv.setPlayer _ hinv _ _ (StInv.getPlayer_towers _ hinv _)

/-- The queen-heal write-back preserves the HP invariant. -/
theorem queenHealState_inv (s : GameSt) (pi : Int) (hinv : StInv s) :
    StInv (queenHealState s pi) := by
  unfold queenHealState
  exact StInv.setPlayer _ hinv _ _
    (processQueenHealing_inv _ (StInv.getPlayer_towers _ hinv _))

/-- Claim C8: after every completed `ProcessTurn` call — accepted or
rejected — every tower of both players satisfies
`0 ≤ CurrentHP ≤ MaxHP`: destruction clamps at exactly 0 and healing caps
at MaxHP. -/
theorem C8_hp_bounds (s : GameSt) (playerIndex : Int) (action : String)
    (troopID? : Option String) (hinv : StInv s) :
    StInv (ProcessTurn s playerIndex action troopID?).2 := by
  unfold ProcessTurn
  split_ifs with h1 h2 h3
  · exact hinv
  · exact hinv
  · cases troopID? with
    | none => exact hinv
    | some tid =>
        dsimp only
        cases hd : deployTroop s playerIndex tid with
        | none => exact hinv
        | some s1 =>
            dsimp only
            have hs1 : StInv s1 := deployTroop_inv _ _ _ _ hd hinv
            have hs2 : StInv (if tid = "queen" then queenHealState s1 playerIndex
                else s1) := by
              split_ifs
              · exact queenHealState_inv _ _ hs1
              · exact hs1
            have hs3 := processTroopAttacks_inv _ playerIndex hs2
            split
            · exact applyGameOver_inv _ _ _ hs3
            · have hs4 := processTowerCounterattacks_inv _ playerIndex hs3
              have hs5 := cleanupDefeatedUnits_inv _ hs4
              split
              · exact applyGameOver_inv _ _ _ hs5
              · exact nextTurn_inv _ hs5
  · exact hinv

/-- Claim C8, witness: the invariant holds for the example state and is
preserved by the example turn. -/
theorem C8_witness :
    StInv exState ∧
    StInv (ProcessTurn exState 0 "deploy_troop" (some "pawn")).2 :=
  ⟨by decide, C8_hp_bounds exState 0 "deploy_troop" (some "pawn") (by decide)⟩

/-! ## Claim C5 — destroy, clamp, retarget and attack again in the same
action -/

/-- Claim C5: in one iteration of the attack loop of a surviving troop:
with no valid target the loop ends clearing the troop's target; a
non-destroying attack ends the loop after exactly that one attack; a
destroying attack clamps the tower to exactly 0 HP, ends the loop when the
match is thereby over, and otherwise continues as the same loop on the
clamped state — where the same troop re-derives its target via
`findValidTarget` and, when fuel and a live tower remain, immediately
attacks it within the same action. -/
theorem C5_attack_chain (fuel : Nat) (myKingHP : Int) (opp : PlayerTowers)
    (troop : TroopCombat) (halive : 0 < troop.currentHP) :
    (resolveTarget opp troop.targetID = none →
      troopAttackLoop (fuel + 1) myKingHP opp troop =
        ⟨opp, { troop with targetID := none }, [], false, false⟩) ∧
    (∀ tgt rt, resolveTarget opp troop.targetID = some (tgt, rt) →
      (0 < (opp.get tgt).currentHP -
          CalculateDamage troop.atk (opp.get tgt).defense →
        troopAttackLoop (fuel + 1) myKingHP opp troop =
          ⟨opp.set tgt { opp.get tgt with currentHP := (opp.get tgt).currentHP - CalculateDamage troop.atk (opp.get tgt).defense },
           { troop with targetID := some tgt },
           (if rt then [AtkEvent.retarget tgt] else []) ++
             [AtkEvent.attack tgt
               (CalculateDamage troop.atk (opp.get tgt).defense)],
           false, false⟩) ∧
      ((opp.get tgt).currentHP -
          CalculateDamage troop.atk (opp.get tgt).defense ≤ 0 →
        ((opp.set tgt { opp.get tgt with currentHP := 0 }).get tgt).currentHP
            = 0 ∧
        (checkGameOverB myKingHP
            (opp.set tgt { opp.get tgt with currentHP := 0 }) = true →
          troopAttackLoop (fuel + 1) myKingHP opp troop =
            ⟨opp.set tgt { opp.get tgt with currentHP := 0 },
             { troop with targetID := some tgt },
             (if rt then [AtkEvent.retarget tgt] else []) ++
               [AtkEvent.attack tgt
                  (CalculateDamage troop.atk (opp.get tgt).defense),
                AtkEvent.destroyed tgt, AtkEvent.gameOver],
             true, false⟩) ∧
        (checkGameOverB myKingHP
            (opp.set tgt { opp.get tgt with currentHP := 0 }) = false →
          (troopAttackLoop (fuel + 1) myKingHP opp troop =
            ⟨(troopAttackLoop fuel myKingHP
                (opp.set tgt { opp.get tgt with currentHP := 0 })
                { troop with targetID := some tgt }).opp,
             (troopAttackLoop fuel myKingHP
                (opp.set tgt { opp.get tgt with currentHP := 0 })
                { troop with targetID := some tgt }).troop,
             (if rt then [AtkEvent.retarget tgt] else []) ++
               [AtkEvent.attack tgt
                  (CalculateDamage troop.atk (opp.get tgt).defense),
                AtkEvent.destroyed tgt] ++
               (troopAttackLoop fuel myKingHP
                  (opp.set tgt { opp.get tgt with currentHP := 0 })
                  { troop with targetID := some tgt }).events,
             (troopAttackLoop fuel myKingHP
                (opp.set tgt { opp.get tgt with currentHP := 0 })
                { troop with targetID := some tgt }).gameOverFlag,
             (troopAttackLoop fuel myKingHP
                (opp.set tgt { opp.get tgt with currentHP := 0 })
                { troop with targetID := some tgt }).fuelExhausted⟩) ∧
          ∀ m, fuel = m + 1 →
            ∀ tgt2, findValidTarget
                (opp.set tgt { opp.get tgt with currentHP := 0 }) =
                  some tgt2 →
              ∃ tail,
                (troopAttackLoop fuel myKingHP
                    (opp.set tgt { opp.get tgt with currentHP := 0 })
                    { troop with targetID := some tgt }).events =
                  AtkEvent.retarget tgt2 ::
                    AtkEvent.attack tgt2
                      (CalculateDamage troop.atk
                        (((opp.set tgt { opp.get tgt with currentHP := 0 }).get
                            tgt2)).defense) :: tail))) := by
  constructor
  · intro hres
    simp only [troopAttackLoop, if_pos halive, hres]
  · intro tgt rt hres
    refine ⟨?_, ?_⟩
    · intro hsurv
      simp only [troopAttackLoop, if_pos halive, hres]
      rw [if_neg (by omega)]
    · intro hdes
      refine ⟨by rw [PlayerTowers.get_set_same], ?_, ?_⟩
      · intro hgo
        simp only [troopAttackLoop, if_pos halive, hres]
        rw [if_pos hdes, if_pos hgo]
        simp
      · intro hgo
        constructor
        · simp only [troopAttackLoop, if_pos halive, hres]
          rw [if_pos hdes, if_neg (by simp [hgo])]
          simp
        · rintro m rfl tgt2 hft
          have hres2 : resolveTarget
              (opp.set tgt { opp.get tgt with currentHP := 0 }) (some tgt) =
              some (tgt2, true) := by
            unfold resolveTarget
            dsimp only
            rw [if_pos (by simp [PlayerTowers.get_set_same]), hft]
            rfl
          by_cases hc : ((opp.set tgt { opp.get tgt with currentHP := 0 }).get tgt2).currentHP - CalculateDamage troop.atk ((opp.set tgt { opp.get tgt with currentHP := 0 }).get tgt2).defense ≤ 0
          · by_cases hgo2 : checkGameOverB myKingHP ((opp.set tgt { opp.get tgt with currentHP := 0 }).set tgt2 { (opp.set tgt { opp.get tgt with currentHP := 0 }).get tgt2 with currentHP := 0 }) = true
            · simp only [troopAttackLoop, hres2, halive, if_true, if_pos halive]
              simp [hc, hgo2]
            · simp only [troopAttackLoop, hres2, halive, if_true, if_pos halive]
              simp [hc, hgo2]
          · simp only [troopAttackLoop, hres2, halive, if_true, if_pos halive]
            simp [hc]

/-- Opponent towers for the chain scenario: guard-1 at 40 HP, guard-2 at
900 HP, king at full HP. -/
def exOppB : PlayerTowers :=
  { king := mkExTower "king_tower" "King Tower" 2000 2000 500 300 "p2"
    guard1 := mkExTower "guard_tower" "Guard Tower 1" 40 1000 300 100 "p2"
    guard2 := mkExTower "guard_tower" "Guard Tower 2" 900 1000 300 100 "p2" }

/-- Claim C5, witness: a troop with ATK 300 destroys guard-1 (40 HP), the
match is not over, and the continuation of the same action immediately
retargets guard-2 (lower HP than the king) and attacks it. -/
theorem C5_witness :
    ∃ tail,
      (troopAttackLoop 3 2000
          (exOppB.set TowerSlot.guard1
            { exOppB.get TowerSlot.guard1 with currentHP := 0 })
          { atk := 300, currentHP := 200,
            targetID := some TowerSlot.guard1 }).events =
        AtkEvent.retarget TowerSlot.guard2 ::
          AtkEvent.attack TowerSlot.guard2
            (CalculateDamage 300
              (((exOppB.set TowerSlot.guard1
                  { exOppB.get TowerSlot.guard1 with currentHP := 0 }).get
                    TowerSlot.guard2)).defense) :: tail :=
  ((((C5_attack_chain 3 2000 exOppB
        { atk := 300, currentHP := 200, targetID := some TowerSlot.guard1 }
        (by decide)).2
      TowerSlot.guard1 false (by decide)).2 (by decide)).2.2 (by decide)).2
    2 rfl TowerSlot.guard2 (by decide)

/-! ## Claim C1 — tower counterattacks never fire (code bug)

In `logic_simple.go`, no statement ever assigns a troop's instance id to a
tower's `TargetID`: towers are created with the zero value `""` and
`processTroopAttacks` records nothing when a troop damages a tower.  The
guard `tower.CurrentHP <= 0 || tower.TargetID == ""` at the top of
`processTowerCounterattacks` therefore skips every tower, and the function
— despite its own documentation ("handles towers attacking troops that
attacked them") — never retaliates.  The theorem below evaluates the
embedded `ProcessTurn` at a concrete failing input: the knight damages the
opposing guard-1 tower for 200 (1000 → 800 HP), the tower survives with a
cleared last-attacker reference, and the knight ends the turn at its full
200 HP even though the claimed retaliation `CalculateDamage(tower ATK 300,
troop DEF 150) = 150` would have left it at 50. -/

/-- Claim C1: at the failing input, the acting player's knight damages the
opposing guard-1 tower this turn, the tower survives, yet no counterattack
occurs — the tower's last-attacker reference is empty throughout and the
knight's HP is unchanged. -/
theorem C1_no_counterattack :
    (ProcessTurn exState 0 "deploy_troop"
        (some "pawn")).2.player1.towers.guard1.currentHP = 800 ∧
    exState.player1.towers.guard1.currentHP = 1000 ∧
    exState.player1.towers.guard1.targetID = none ∧
    (ProcessTurn exState 0 "deploy_troop"
        (some "pawn")).2.player1.towers.guard1.targetID = none ∧
    ((ProcessTurn exState 0 "deploy_troop"
        (some "pawn")).2.player0.activeTroops.find?
          (fun t => t.instanceID = 7)).map ActiveTroop.currentHP = some 200 ∧
    CalculateDamage exState.player1.towers.guard1.atk exKnight.defense =
      150 := by
  refine ⟨by decide, by decide, by decide, by decide, by decide, by decide⟩

end TCR
